import Mathlib

/-!
Shallow embedding of the SpecGrade rule-evaluation and grading engine.

Sources embedded here:
* `reporter` package: `DefaultGrader.Grade`, `DefaultGrader.CalculateScore`
* `registry` package: `RuleRegistry.RulesForVersion`, `RuleRegistry.GetRule`
* `runner` package: `Runner.Run`, `Runner.RunRule`
* `rules` package: the eight built-in rules (`basic_rules.go`, `advanced_rules.go`)
* `cmd` package: `registerRules` (registration order of the built-in rules)

Modelling conventions:
* Go maps are embedded as association lists; the list order stands for the
  (unspecified, randomized) iteration order Go's `range` uses on that map.
  Two lists that are permutations of one another represent the same Go map.
* A nil-able Go map or pointer is `Option _` where the code distinguishes
  nil from empty (`Paths == nil` vs `len(Paths) == 0`), plain lists otherwise.
* Go `float64` arithmetic: `CalculateScore`'s division and multiplication
  are embedded with exact binary64 rounding (`roundF`: round to nearest,
  ties to even), so its double rounding is reproduced; the int→float64
  conversions of the two counts are exact for every realizable count
  (|v| < 2^53). `Grade`'s threshold comparisons are embedded as
  exact-rational comparisons, which agree with the float computation on
  every realizable input. Go's `int(x)` conversion truncates toward zero,
  the floor for the non-negative values occurring here.
* Schema pointers are node identifiers (`Nat`) into a total schema store
  `Nat → Schema`; pointer-identity of the Go `visited` map becomes identity
  of node identifiers.
-/

namespace SpecGrade

/-- Untyped example value attached to a schema: tagged union of the dynamic
Go values `isExampleValidForType` inspects (string, integral number, floating
number, bool, slice, map), as produced by the JSON/YAML parsing collaborator. -/
inductive ExampleVal where
  | str (s : String)
  | int (n : Int)
  | float (q : ℚ)
  | bool (b : Bool)
  | arr (elems : List ExampleVal)
  | obj (fields : List (String × ExampleVal))

/-- Result of evaluating one rule (`core.RuleResult`). Fields the engine and
the claims read; the remaining Go fields (`Location`, `Suggestion`, `Impact`,
`Metadata`) are branch-constant diagnostic payloads never read back by the
runner, grader, or registry and are not embedded. Absent record fields of a
Go struct literal default to the zero value `""`. -/
structure RuleResult where
  ruleID : String := ""
  passed : Bool := false
  detail : String := ""
  severity : String := ""
  category : String := ""
deriving Repr, DecidableEq, Inhabited

/-- Number of results with `Passed == true`: the counting loop shared by
`DefaultGrader.Grade` and `DefaultGrader.CalculateScore`. -/
def passedCount (results : List RuleResult) : Nat :=
  results.countP (·.passed)

/-- `DefaultGrader.Grade` (reporter package): percentage of passed results
mapped through the descending threshold switch; empty input grades "F". -/
def Grade (results : List RuleResult) : String :=
  if results.length = 0 then "F"
  else
    let percentage : ℚ := (passedCount results : ℚ) / (results.length : ℚ) * 100
    if percentage ≥ 95 then "A+"
    else if percentage ≥ 90 then "A"
    else if percentage ≥ 85 then "A-"
    else if percentage ≥ 80 then "B+"
    else if percentage ≥ 75 then "B"
    else if percentage ≥ 70 then "B-"
    else if percentage ≥ 65 then "C+"
    else if percentage ≥ 60 then "C"
    else if percentage ≥ 55 then "C-"
    else if percentage ≥ 50 then "D"
    else "F"

/-- Round a rational to the nearest integer, ties to even: the rounding an
IEEE-754 operation applies to the exact result scaled into the mantissa. -/
def rne (x : ℚ) : ℤ :=
  if x - ⌊x⌋ < 1/2 then ⌊x⌋
  else if x - ⌊x⌋ > 1/2 then ⌊x⌋ + 1
  else if ⌊x⌋ % 2 = 0 then ⌊x⌋ else ⌊x⌋ + 1

/-- Round a positive rational to the nearest IEEE-754 binary64 value (round
to nearest, ties to even), as an exact rational: scale the value into the
53-bit mantissa range of its binade and round the mantissa to an integer
(a carry to the next binade needs no special case, `2^53 * 2^(e-52)` is
exactly the next power of two). Faithful on the normal range; every value
the grader produces lies in `[0, 100]`, far from overflow and underflow. -/
def roundF (q : ℚ) : ℚ :=
  if q ≤ 0 then 0
  else (rne (q * 2 ^ ((52 : ℤ) - Int.log 2 q)) : ℚ) * 2 ^ (Int.log 2 q - 52)

/-- `DefaultGrader.CalculateScore` (reporter package):
`int(float64(passed) / float64(len(results)) * 100)`. The two int→float64
conversions are exact for every realizable count (|v| < 2^53); the float64
division and the multiplication by 100 each round their exact result to the
nearest binary64 value, and Go's `int(_)` conversion truncates toward zero,
the floor of the non-negative product. -/
def CalculateScore (results : List RuleResult) : Int :=
  if results.length = 0 then 0
  else ⌊roundF (roundF ((passedCount results : ℚ) / (results.length : ℚ)) * 100)⌋

/-- The pass percentage both grader functions compute:
`float64(passed) / float64(len(results)) * 100` as an exact rational. -/
def percentage (results : List RuleResult) : ℚ :=
  (passedCount results : ℚ) / (results.length : ℚ) * 100

/-- A result set with two of three rules passed (concrete input showing the
score is truncated, not rounded). -/
def twoOfThree : List RuleResult :=
  [{passed := true}, {passed := true}, {passed := false}]

/-- A result set with `p` passed and `q` failed results. -/
def mixedResults (p q : ℕ) : List RuleResult :=
  List.replicate p {passed := true} ++ List.replicate q {passed := false}

/-- Go's `strings.HasPrefix(s, pre)`: the characters of `pre` lead those of
`s` (for valid UTF-8 the byte-prefix and character-prefix relations agree). -/
def goHasPrefix (s pre : String) : Bool :=
  pre.data.isPrefixOf s.data

/-- Go's `unicode.IsSpace`: the Unicode White_Space code points Go trims. -/
def goIsSpace (c : Char) : Bool :=
  c.val == 0x09 || c.val == 0x0A || c.val == 0x0B || c.val == 0x0C || c.val == 0x0D ||
  c.val == 0x20 || c.val == 0x85 || c.val == 0xA0 || c.val == 0x1680 ||
  (decide (0x2000 ≤ c.val) && decide (c.val ≤ 0x200A)) ||
  c.val == 0x2028 || c.val == 0x2029 || c.val == 0x202F || c.val == 0x205F ||
  c.val == 0x3000

/-- Go's `strings.TrimSpace`: leading and trailing Unicode whitespace
removed. -/
def goTrimSpace (s : String) : String :=
  ⟨((s.data.dropWhile goIsSpace).reverse.dropWhile goIsSpace).reverse⟩

/-- The `info` section of a document (`openapi3.Info`): only the fields the
rules read. -/
structure Info where
  title : String := ""
  version : String := ""
deriving Repr, DecidableEq, Inhabited

/-- One operation (`openapi3.Operation`): only the fields the rules read.
`responses` keeps just the response-code keys, since the code only tests key
presence (`op.Responses["400"]`); `none` is a nil responses map. -/
structure Operation where
  operationId : String := ""
  description : String := ""
  responses : Option (List String) := none
deriving Repr, DecidableEq, Inhabited

/-- One path item (`openapi3.PathItem`): up to one operation per HTTP method. -/
structure PathItem where
  get : Option Operation := none
  post : Option Operation := none
  put : Option Operation := none
  delete : Option Operation := none
  patch : Option Operation := none
  head : Option Operation := none
  options : Option Operation := none
deriving Repr, DecidableEq, Inhabited

/-- The method-ordered operation list every rule builds from a path item:
GET, POST, PUT, DELETE, PATCH, HEAD, OPTIONS (`nil` entries included, the
loops skip them). -/
def PathItem.operations (pi : PathItem) : List (Option Operation) :=
  [pi.get, pi.post, pi.put, pi.delete, pi.patch, pi.head, pi.options]

/-- One schema node (`openapi3.Schema`): declared type, optional example, and
properties. A property's `*SchemaRef.Value` pointer is a node identifier into
the document's schema store (`none` when the pointer is nil). -/
structure Schema where
  type : String := ""
  example? : Option ExampleVal := none
  properties : List (String × Option Nat) := []

/-- The `components` section (`openapi3.Components`): schema map and security
scheme map; for security schemes only the key set matters to the code. -/
structure Components where
  schemas : Option (List (String × Option Nat)) := none
  securitySchemes : Option (List String) := none

/-- The parsed document (`openapi3.T`): the fields the engine reads, plus the
schema store resolving node identifiers (Go pointers) to schema nodes.
`paths = none` is a nil paths map, distinguished from an empty one because
`OperationIDRule` tests `Paths == nil` while other rules test `len(Paths)`. -/
structure Document where
  info : Option Info := none
  paths : Option (List (String × PathItem)) := none
  components : Option Components := none
  store : Nat → Schema := fun _ => { : Schema}

/-- Evaluation context (`core.SpecContext`). -/
structure SpecContext where
  spec : Document
  version : String

/-- `SchemaExampleConsistencyRule.isExampleValidForType`: type switch on the
dynamic type of the example value. The integral check on a floating value is
Go's `f == float64(int64(f))`: true exactly when the value has no fractional
part AND is representable in int64 — for integral `f` outside
`[-2^63, 2^63)` the conversion overflows (amd64 yields the INT64_MIN
sentinel, whose float64 image never equals such an `f`), so the check
fails. -/
def isExampleValidForType (ex : ExampleVal) (schemaType : String) : Bool :=
  match schemaType with
  | "string" =>
    match ex with
    | .str _ => true
    | _ => false
  | "integer" =>
    match ex with
    | .int _ => true
    | .float q => q.den == 1 && decide (-(2 ^ 63) ≤ q.num) && decide (q.num < 2 ^ 63)
    | _ => false
  | "number" =>
    match ex with
    | .int _ => true
    | .float _ => true
    | _ => false
  | "boolean" =>
    match ex with
    | .bool _ => true
    | _ => false
  | "array" =>
    match ex with
    | .arr _ => true
    | _ => false
  | "object" =>
    match ex with
    | .obj _ => true
    | _ => false
  | _ => true

/-- Rendering of an example value in diagnostics, modelling Go's `%v` verb
(strings raw, numbers decimal, bools `true`/`false`, slices bracketed and
space-separated, maps `map[k:v ...]`). Rational floats print as fractions;
no claim depends on float formatting. -/
def ExampleVal.format : ExampleVal → String
  | .str s => s
  | .int n => toString n
  | .float q => toString q
  | .bool b => toString b
  | .arr elems =>
    "[" ++ String.intercalate " " (elems.attach.map (fun e => ExampleVal.format e.1)) ++ "]"
  | .obj fields =>
    "map[" ++
      String.intercalate " "
        (fields.attach.map (fun f => f.1.1 ++ ":" ++ ExampleVal.format f.1.2)) ++ "]"
decreasing_by
  · have hlt := List.sizeOf_lt_of_mem e.2
    simp only [ExampleVal.arr.sizeOf_spec]
    omega
  · obtain ⟨⟨k, v⟩, hm⟩ := f
    have hlt := List.sizeOf_lt_of_mem hm
    simp only [Prod.mk.sizeOf_spec] at hlt
    simp only [ExampleVal.obj.sizeOf_spec]
    omega

/-- `SchemaExampleConsistencyRule.checkSchemaExamplesWithDepth`: recursive
walk of a schema's property graph. Returns on `depth > 10` or when the node
is already on the current path (`visited`); Go's shared map with a deferred
removal behaves exactly as this path-passed set, since marks are erased when
the call returns. -/
def checkSchemaExamplesWithDepth (store : Nat → Schema) (schemaName : String) (sid : Nat)
    (path : String) (depth : Nat) (visited : List Nat) : List String :=
  if h : depth > 10 ∨ sid ∈ visited then []
  else
    let schema := store sid
    let currentPath := if path = "" then schemaName else schemaName ++ "." ++ path
    let directIssues : List String :=
      match schema.example? with
      | some ex =>
        if schema.type ≠ "" then
          if isExampleValidForType ex schema.type then []
          else [currentPath ++ ": " ++ schema.type ++ " example " ++ ex.format ++
                " doesn't match type " ++ schema.type]
        else []
      | none => []
    let propIssues : List String :=
      schema.properties.flatMap (fun p =>
        match p.2 with
        | some pid =>
          let propPath := if path = "" then p.1 else path ++ "." ++ p.1
          checkSchemaExamplesWithDepth store schemaName pid propPath (depth + 1) (sid :: visited)
        | none => [])
    directIssues ++ propIssues
termination_by 11 - depth
decreasing_by
  push_neg at h
  omega

/-- `SchemaExampleConsistencyRule.checkSchemaExamples`: entry point with
depth 0 and an empty visited set. -/
def checkSchemaExamples (store : Nat → Schema) (schemaName : String) (sid : Nat)
    (path : String) : List String :=
  checkSchemaExamplesWithDepth store schemaName sid path 0 []

/-- `InfoTitleRule.Evaluate` (basic_rules.go): fails when the info section is
absent, the title is empty, or the title is shorter than 5 bytes (Go `len`);
the short-title failure carries severity "warning", the others "error". -/
def InfoTitleRule.Evaluate (ctx : SpecContext) : RuleResult :=
  match ctx.spec.info with
  | none =>
    { ruleID := "info-title", passed := false, detail := "Missing info section",
      severity := "error", category := "documentation" }
  | some info =>
    if info.title = "" then
      { ruleID := "info-title", passed := false, detail := "Missing title in info section",
        severity := "error", category := "documentation" }
    else if info.title.utf8ByteSize < 5 then
      { ruleID := "info-title", passed := false,
        detail := "Title too short: '" ++ info.title ++ "' (minimum 5 characters recommended)",
        severity := "warning", category := "documentation" }
    else
      { ruleID := "info-title", passed := true,
        detail := "Title present: '" ++ info.title ++ "'",
        severity := "info", category := "documentation" }

/-- `InfoVersionRule.Evaluate` (basic_rules.go). -/
def InfoVersionRule.Evaluate (ctx : SpecContext) : RuleResult :=
  match ctx.spec.info with
  | none =>
    { ruleID := "info-version", passed := false, detail := "Missing info section" }
  | some info =>
    if info.version = "" then
      { ruleID := "info-version", passed := false, detail := "Missing version in info section" }
    else
      { ruleID := "info-version", passed := true, detail := "Version present" }

/-- `PathsExistRule.Evaluate` (basic_rules.go): `len` of a nil Go map is 0. -/
def PathsExistRule.Evaluate (ctx : SpecContext) : RuleResult :=
  if (ctx.spec.paths.getD []).length = 0 then
    { ruleID := "paths-exist", passed := false, detail := "No paths defined" }
  else
    { ruleID := "paths-exist", passed := true,
      detail := toString (ctx.spec.paths.getD []).length ++ " paths defined" }

/-- All operations of a document in iteration order: paths in map-iteration
order, then the fixed method order, nil operations skipped — the loop shape
shared by the three operation rules. -/
def documentOperations (paths : List (String × PathItem)) : List Operation :=
  paths.flatMap (fun p => p.2.operations.filterMap id)

/-- One step of `OperationIDRule`'s counting loop: the state is the seen-set
of non-empty IDs plus the (missing, duplicate) counters. An empty ID bumps
the missing count; a non-empty ID already seen bumps the duplicate count
(inserting an already-present key into Go's `map[string]bool` leaves the set
unchanged); a fresh ID enters the seen-set. -/
def opIDStep (st : List String × Nat × Nat) (op : Operation) : List String × Nat × Nat :=
  if op.operationId = "" then (st.1, st.2.1 + 1, st.2.2)
  else if st.1.contains op.operationId then (st.1, st.2.1, st.2.2 + 1)
  else (op.operationId :: st.1, st.2.1, st.2.2)

/-- The non-empty operation IDs of an operation sequence in order. -/
def nonEmptyIds (ops : List Operation) : List String :=
  ops.filterMap (fun op => if op.operationId = "" then none else some op.operationId)

/-- `OperationIDRule.Evaluate` (basic_rules.go): guarded by `Paths == nil`
(not emptiness); counts operations with empty IDs and, via a seen-set,
duplicate non-empty IDs. -/
def OperationIDRule.Evaluate (ctx : SpecContext) : RuleResult :=
  match ctx.spec.paths with
  | none =>
    { ruleID := "operation-operationId-unique", passed := true, detail := "No paths to check" }
  | some paths =>
    let counts := (documentOperations paths).foldl opIDStep ([], 0, 0)
    let missingCount := counts.2.1
    let duplicateCount := counts.2.2
    if missingCount > 0 ∨ duplicateCount > 0 then
      let detail :=
        (if missingCount > 0 then toString missingCount ++ " operations missing operation ID"
         else "") ++
        (if duplicateCount > 0 then
          (if missingCount > 0 then ", " else "") ++
            toString duplicateCount ++ " duplicate operation IDs"
         else "")
      { ruleID := "operation-operationId-unique", passed := false, detail := detail }
    else
      { ruleID := "operation-operationId-unique", passed := true,
        detail := "All operations have unique operation IDs" }

/-- `OperationDescriptionRule.Evaluate` (advanced_rules.go): counts operations
with empty descriptions and with non-empty descriptions whose trimmed length
is under 10 bytes. -/
def OperationDescriptionRule.Evaluate (ctx : SpecContext) : RuleResult :=
  if (ctx.spec.paths.getD []).length = 0 then
    { ruleID := "operation-description", passed := true, detail := "No paths to check" }
  else
    let ops := documentOperations (ctx.spec.paths.getD [])
    let missingDesc := ops.countP (fun op => op.description = "")
    let shortDesc :=
      ops.countP (fun op => op.description ≠ "" ∧ (goTrimSpace op.description).utf8ByteSize < 10)
    if missingDesc = 0 ∧ shortDesc = 0 then
      { ruleID := "operation-description", passed := true,
        detail := "All operations have meaningful descriptions" }
    else
      let issues :=
        (if missingDesc > 0 then [toString missingDesc ++ " missing descriptions"] else []) ++
        (if shortDesc > 0 then [toString shortDesc ++ " too short (< 10 chars)"] else [])
      { ruleID := "operation-description", passed := false,
        detail := "Description issues: " ++ String.intercalate ", " issues }

/-- `ErrorResponseRule.Evaluate` (advanced_rules.go), rule ID
"operation-success-response": counts operations missing a "400" and a "500"
response entry; a nil responses map counts as missing both. The failing
branch carries severity "warning" and category "error_handling"; the final
Go return statement is unreachable (some count is positive there). -/
def ErrorResponseRule.Evaluate (ctx : SpecContext) : RuleResult :=
  if (ctx.spec.paths.getD []).length = 0 then
    { ruleID := "operation-success-response", passed := true, detail := "No paths to check" }
  else
    let ops := documentOperations (ctx.spec.paths.getD [])
    let missing400 := ops.countP (fun op =>
      match op.responses with
      | some rs => !(rs.contains "400")
      | none => true)
    let missing500 := ops.countP (fun op =>
      match op.responses with
      | some rs => !(rs.contains "500")
      | none => true)
    if missing400 = 0 ∧ missing500 = 0 then
      { ruleID := "operation-success-response", passed := true,
        detail := "All operations define proper error responses" }
    else
      let detail := "Missing error responses: " ++
        (if missing400 > 0 then toString missing400 ++ " missing 400 responses" else "") ++
        (if missing500 > 0 then
          (if missing400 > 0 then ", " else "") ++
            toString missing500 ++ " missing 500 responses"
         else "")
      { ruleID := "operation-success-response", passed := false, detail := detail,
        severity := "warning", category := "error_handling" }

/-- `SecuritySchemeRule.Evaluate` (advanced_rules.go), rule ID
"oas3-security-defined": fails when components or the security scheme map is
nil or empty. -/
def SecuritySchemeRule.Evaluate (ctx : SpecContext) : RuleResult :=
  match ctx.spec.components with
  | none =>
    { ruleID := "oas3-security-defined", passed := false, detail := "No security schemes defined" }
  | some comps =>
    match comps.securitySchemes with
    | none =>
      { ruleID := "oas3-security-defined", passed := false,
        detail := "No security schemes defined" }
    | some ss =>
      if ss.length = 0 then
        { ruleID := "oas3-security-defined", passed := false,
          detail := "No security schemes defined" }
      else
        { ruleID := "oas3-security-defined", passed := true,
          detail := toString ss.length ++ " security schemes defined" }

/-- `SchemaExampleConsistencyRule.Evaluate` (advanced_rules.go), rule ID
"oas3-valid-schema-example": walks every named schema (nil schema refs
skipped), passing iff no mismatch was collected; on failure reports the
count and the first `min 3` mismatches joined by "; ". -/
def SchemaExampleConsistencyRule.Evaluate (ctx : SpecContext) : RuleResult :=
  let issues : List String :=
    match ctx.spec.components with
    | some comps =>
      match comps.schemas with
      | some schemas =>
        schemas.flatMap (fun s =>
          match s.2 with
          | some sid => checkSchemaExamples ctx.spec.store s.1 sid ""
          | none => [])
      | none => []
    | none => []
  if issues.length = 0 then
    { ruleID := "oas3-valid-schema-example", passed := true,
      detail := "All schema examples match their declared types" }
  else
    { ruleID := "oas3-valid-schema-example", passed := false,
      detail := "Found " ++ toString issues.length ++ " type/example mismatches: " ++
        String.intercalate "; " (issues.take (min 3 issues.length)) }

/-- The eight built-in rule implementations (dynamic dispatch over the
`core.Rule` interface becomes a closed sum). -/
inductive RuleT where
  | infoTitle
  | infoVersion
  | pathsExist
  | operationID
  | schemaExampleConsistency
  | operationDescription
  | errorResponse
  | securityScheme
deriving DecidableEq, Repr, Inhabited

/-- `ID()` of each built-in rule. -/
def RuleT.id : RuleT → String
  | .infoTitle => "info-title"
  | .infoVersion => "info-version"
  | .pathsExist => "paths-exist"
  | .operationID => "operation-operationId-unique"
  | .schemaExampleConsistency => "oas3-valid-schema-example"
  | .operationDescription => "operation-description"
  | .errorResponse => "operation-success-response"
  | .securityScheme => "oas3-security-defined"

/-- `AppliesTo(version)` of each built-in rule: every one of the eight Go
methods is literally `strings.HasPrefix(version, "3.")`. -/
def RuleT.appliesTo : RuleT → String → Bool
  | .infoTitle, version => goHasPrefix version "3."
  | .infoVersion, version => goHasPrefix version "3."
  | .pathsExist, version => goHasPrefix version "3."
  | .operationID, version => goHasPrefix version "3."
  | .schemaExampleConsistency, version => goHasPrefix version "3."
  | .operationDescription, version => goHasPrefix version "3."
  | .errorResponse, version => goHasPrefix version "3."
  | .securityScheme, version => goHasPrefix version "3."

/-- `Evaluate(ctx)` dispatch. -/
def RuleT.evaluate : RuleT → SpecContext → RuleResult
  | .infoTitle, ctx => InfoTitleRule.Evaluate ctx
  | .infoVersion, ctx => InfoVersionRule.Evaluate ctx
  | .pathsExist, ctx => PathsExistRule.Evaluate ctx
  | .operationID, ctx => OperationIDRule.Evaluate ctx
  | .schemaExampleConsistency, ctx => SchemaExampleConsistencyRule.Evaluate ctx
  | .operationDescription, ctx => OperationDescriptionRule.Evaluate ctx
  | .errorResponse, ctx => ErrorResponseRule.Evaluate ctx
  | .securityScheme, ctx => SecuritySchemeRule.Evaluate ctx

/-- `registerRules` (cmd/root.go): the registration order of the built-ins. -/
def registerRules : List RuleT :=
  [.infoTitle, .infoVersion, .pathsExist, .operationID,
   .schemaExampleConsistency, .operationDescription, .errorResponse, .securityScheme]

/-- `RuleRegistry.RulesForVersion`: registered rules whose `AppliesTo` holds,
in registration order. -/
def RulesForVersion (registered : List RuleT) (version : String) : List RuleT :=
  registered.filter (fun rule => rule.appliesTo version)

/-- `RuleRegistry.GetRule`: first registered rule with the given ID, `none`
when not found (Go returns nil). -/
def GetRule (registered : List RuleT) (id : String) : Option RuleT :=
  registered.find? (fun rule => rule.id == id)

/-- `Runner.Run`: applicable rules in order, rules whose ID is in the skip
set dropped, each remaining rule contributing its evaluation result.
`NewRunner` turns the skip slice into a membership map, so list containment
models the `skipRules[rule.ID()]` test. -/
def Runner.Run (registered : List RuleT) (skipRules : List String)
    (ctx : SpecContext) : List RuleResult :=
  (RulesForVersion registered ctx.version).filterMap (fun rule =>
    if skipRules.contains rule.id then none else some (rule.evaluate ctx))

/-- `Runner.RunRule`: nil result and nil error both when the rule ID is
unknown and when the rule does not apply to the context's version; the Go
error component is nil at every return site. -/
def Runner.RunRule (registered : List RuleT) (ctx : SpecContext)
    (ruleID : String) : Option RuleResult × Option String :=
  match GetRule registered ruleID with
  | none => (none, none)
  | some rule =>
    if !(rule.appliesTo ctx.version) then (none, none)
    else (some (rule.evaluate ctx), none)

/-- The empty document of the spec's concrete scenario: an empty (non-nil)
path map, no info section, no components. -/
def emptyDoc : Document := { paths := some [] }

/-- The direct type/example check of a single schema node succeeds: no
example, empty type, or a compatible example (the negation of the condition
under which the traversal emits an issue at a node). -/
def schemaNodeOK (s : Schema) : Bool :=
  match s.example? with
  | some ex => s.type == "" || isExampleValidForType ex s.type
  | none => true

/-- Two-schema cycle of the spec's cycle-safety scenario: node 0 ("A") has a
property "child" referencing node 1 ("B"), whose property "parent"
references node 0 again. -/
def cycleStore : Nat → Schema := fun n =>
  match n with
  | 0 => { type := "object", properties := [("child", some 1)] }
  | _ => { type := "object", properties := [("parent", some 0)] }

/-- A document holding the two-schema cycle under `components.schemas`. -/
def cycleDoc : Document :=
  { components := some { schemas := some [("A", some 0), ("B", some 1)] },
    store := cycleStore }

/-- Pointwise lifting of a relation to optional values: both absent, or both
present and related. -/
def optRel {α : Type _} (R : α → α → Prop) : Option α → Option α → Prop
  | none, none => True
  | some a, some b => R a b
  | _, _ => False

/-- Two schema nodes carrying the same Go schema object: equal scalar fields
and property maps that are permutations of one another (two iteration orders
of the same `Properties` map). -/
def Schema.Equiv (s1 s2 : Schema) : Prop :=
  s1.type = s2.type ∧ s1.example? = s2.example? ∧ s1.properties.Perm s2.properties

/-- Two components sections presenting the same Go maps. -/
def Components.Equiv (c1 c2 : Components) : Prop :=
  optRel List.Perm c1.schemas c2.schemas ∧
    optRel List.Perm c1.securitySchemes c2.securitySchemes

/-- Two documents representing the same parsed Go document across two runs:
identical scalar content, every Go map presented in a possibly different
(randomized) iteration order. -/
def Document.Equiv (d1 d2 : Document) : Prop :=
  d1.info = d2.info ∧
  optRel List.Perm d1.paths d2.paths ∧
  optRel Components.Equiv d1.components d2.components ∧
  ∀ n, Schema.Equiv (d1.store n) (d2.store n)

/-- Store with two integer-typed schemas whose examples are strings (both
mismatches). -/
def mismatchStore : Nat → Schema := fun n =>
  match n with
  | 0 => { type := "integer", example? := some (.str "x") }
  | _ => { type := "integer", example? := some (.str "y") }

/-- The mismatch document with its schema map iterated A first. -/
def mismatchDocAB : Document :=
  { components := some { schemas := some [("A", some 0), ("B", some 1)] },
    store := mismatchStore }

/-- The same mismatch document with its schema map iterated B first. -/
def mismatchDocBA : Document :=
  { components := some { schemas := some [("B", some 1), ("A", some 0)] },
    store := mismatchStore }

end SpecGrade

namespace SpecGrade

/-! ## Supporting lemmas -/

/-- Round-to-nearest of a non-negative value is non-negative. -/
theorem rne_nonneg {x : ℚ} (hx : 0 ≤ x) : 0 ≤ rne x := by
  have h := Int.floor_nonneg.mpr hx
  unfold rne
  split_ifs <;> omega

/-- Round-to-nearest never exceeds the value by more than a half. -/
theorem rne_le_add_half (x : ℚ) : (rne x : ℚ) ≤ x + 1/2 := by
  have h1 := Int.floor_le x
  have h2 := Int.lt_floor_add_one x
  unfold rne
  split_ifs <;> push_cast <;> linarith

/-- Round-to-nearest falls short of the value by at most a half. -/
theorem sub_half_le_rne (x : ℚ) : x - 1/2 ≤ (rne x : ℚ) := by
  have h1 := Int.floor_le x
  have h2 := Int.lt_floor_add_one x
  unfold rne
  split_ifs <;> push_cast <;> linarith

/-- Evaluation rule for `rne` when the value sits strictly below the
midpoint above its floor. -/
theorem rne_eq_of_lt {x : ℚ} {f : ℤ} (h1 : (f : ℚ) ≤ x) (h2 : x - f < 1/2) : rne x = f := by
  have hf : ⌊x⌋ = f := by
    rw [Int.floor_eq_iff]
    refine ⟨h1, ?_⟩
    push_cast
    linarith
  unfold rne
  rw [hf, if_pos h2]

/-- The dyadic sandwich pins down `Int.log 2`. -/
theorem int_log2_eq {q : ℚ} {e : ℤ} (h1 : (2:ℚ) ^ e ≤ q) (h2 : q < 2 ^ (e + 1)) :
    Int.log 2 q = e := by
  have hq : 0 < q := lt_of_lt_of_le (by positivity) h1
  have ha : e ≤ Int.log 2 q := (Int.zpow_le_iff_le_log (by norm_num) hq).mp (by exact_mod_cast h1)
  have hb : Int.log 2 q < e + 1 :=
    (Int.lt_zpow_iff_log_lt (by norm_num) hq).mp (by exact_mod_cast h2)
  omega

/-- Evaluation rule for `roundF` given a concrete binade and mantissa. -/
theorem roundF_eq_of (q : ℚ) (e m : ℤ) (h0 : 0 < q)
    (h1 : (2:ℚ) ^ e ≤ q) (h2 : q < 2 ^ (e + 1))
    (hm1 : (m : ℚ) ≤ q * 2 ^ ((52 : ℤ) - e)) (hm2 : q * 2 ^ ((52 : ℤ) - e) - m < 1/2) :
    roundF q = (m : ℚ) * 2 ^ (e - 52) := by
  rw [roundF, if_neg (not_le.mpr h0), int_log2_eq h1 h2, rne_eq_of_lt hm1 hm2]

/-- The rounded value of a positive rational is non-negative. -/
theorem roundF_nonneg (q : ℚ) : 0 ≤ roundF q := by
  rw [roundF]
  split_ifs with h
  · exact le_rfl
  · have hq : 0 < q := not_le.mp h
    have hx : (0:ℚ) ≤ q * 2 ^ ((52:ℤ) - Int.log 2 q) := by positivity
    have hr := rne_nonneg hx
    exact mul_nonneg (by exact_mod_cast hr) (by positivity)

/-- The rounded value of a positive rational is positive. -/
theorem roundF_pos {q : ℚ} (hq : 0 < q) : 0 < roundF q := by
  rw [roundF, if_neg (not_le.mpr hq)]
  have hle : ((2:ℕ):ℚ) ^ Int.log 2 q ≤ q := Int.zpow_log_le_self (by norm_num) hq
  have hx : (2:ℚ) ^ (52:ℤ) ≤ q * 2 ^ ((52:ℤ) - Int.log 2 q) := by
    calc (2:ℚ) ^ (52:ℤ)
        = 2 ^ Int.log 2 q * 2 ^ ((52:ℤ) - Int.log 2 q) := by
          rw [← zpow_add₀ (by norm_num : (2:ℚ) ≠ 0)]
          congr 1
          ring
      _ ≤ q * 2 ^ ((52:ℤ) - Int.log 2 q) :=
          mul_le_mul_of_nonneg_right (by exact_mod_cast hle) (by positivity)
  have hr := sub_half_le_rne (q * 2 ^ ((52:ℤ) - Int.log 2 q))
  have h52 : (1:ℚ) ≤ (2:ℚ) ^ (52:ℤ) := by norm_num
  have hrpos : (0:ℚ) < (rne (q * 2 ^ ((52:ℤ) - Int.log 2 q)) : ℚ) := by linarith
  exact mul_pos hrpos (by positivity)

/-- Rounding to the nearest binary64 value overshoots a positive value by at
most half an ulp: a factor of `1 + 2^-53`. -/
theorem roundF_le_mul {q : ℚ} (hq : 0 < q) :
    roundF q ≤ q * (9007199254740993 / 9007199254740992) := by
  rw [roundF, if_neg (not_le.mpr hq)]
  have hle : ((2:ℕ):ℚ) ^ Int.log 2 q ≤ q := Int.zpow_log_le_self (by norm_num) hq
  have hpow2 : (0:ℚ) < (2:ℚ) ^ (Int.log 2 q - 52) := by positivity
  have hr := rne_le_add_half (q * 2 ^ ((52:ℤ) - Int.log 2 q))
  have hmul : (rne (q * 2 ^ ((52:ℤ) - Int.log 2 q)) : ℚ) * 2 ^ (Int.log 2 q - 52) ≤
      (q * 2 ^ ((52:ℤ) - Int.log 2 q) + 1/2) * 2 ^ (Int.log 2 q - 52) :=
    mul_le_mul_of_nonneg_right hr (le_of_lt hpow2)
  have h1 : (2:ℚ) ^ ((52:ℤ) - Int.log 2 q) * 2 ^ (Int.log 2 q - 52) = 1 := by
    rw [← zpow_add₀ (by norm_num : (2:ℚ) ≠ 0),
      show (52:ℤ) - Int.log 2 q + (Int.log 2 q - 52) = 0 by ring, zpow_zero]
  have h2 : (1:ℚ)/2 * 2 ^ (Int.log 2 q - 52) = 2 ^ (Int.log 2 q - 53) := by
    rw [show Int.log 2 q - 53 = (-1) + (Int.log 2 q - 52) by ring,
      zpow_add₀ (by norm_num : (2:ℚ) ≠ 0)]
    norm_num
  have hid : (q * 2 ^ ((52:ℤ) - Int.log 2 q) + 1/2) * 2 ^ (Int.log 2 q - 52) =
      q + 2 ^ (Int.log 2 q - 53) := by
    calc (q * 2 ^ ((52:ℤ) - Int.log 2 q) + 1/2) * 2 ^ (Int.log 2 q - 52)
        = q * (2 ^ ((52:ℤ) - Int.log 2 q) * 2 ^ (Int.log 2 q - 52)) +
            1/2 * 2 ^ (Int.log 2 q - 52) := by ring
      _ = q + 2 ^ (Int.log 2 q - 53) := by rw [h1, h2]; ring
  have hsplit : (2:ℚ) ^ (Int.log 2 q - 53) = 2 ^ Int.log 2 q * 2 ^ (-(53:ℤ)) := by
    rw [← zpow_add₀ (by norm_num : (2:ℚ) ≠ 0)]
    congr 1
  have h9 : (2:ℚ) ^ (-(53:ℤ)) = 1 / 9007199254740992 := by
    rw [zpow_neg]
    norm_num
  have hbound : (2:ℚ) ^ (Int.log 2 q - 53) ≤ q * (1 / 9007199254740992) := by
    rw [hsplit, h9]
    exact mul_le_mul_of_nonneg_right (by exact_mod_cast hle) (by norm_num)
  calc (rne (q * 2 ^ ((52:ℤ) - Int.log 2 q)) : ℚ) * 2 ^ (Int.log 2 q - 52)
      ≤ q + 2 ^ (Int.log 2 q - 53) := by rw [← hid]; exact hmul
    _ ≤ q + q * (1 / 9007199254740992) := by linarith
    _ = q * (9007199254740993 / 9007199254740992) := by ring

/-- The passed count of a `mixedResults` set is its first parameter. -/
theorem passedCount_mixedResults (p q : ℕ) : passedCount (mixedResults p q) = p := by
  simp [passedCount, mixedResults, List.countP_append, List.countP_replicate]

/-- The length of a `mixedResults` set is the sum of its parameters. -/
theorem length_mixedResults (p q : ℕ) : (mixedResults p q).length = p + q := by
  simp [mixedResults]

/-- The float64 score of two passed among three: the double-rounded product
is just below 66.67 and truncates to 66. -/
theorem calcScore_twoOfThree : CalculateScore twoOfThree = 66 := by
  have hq : (passedCount twoOfThree : ℚ) / (twoOfThree.length : ℚ) = 2/3 := by
    norm_num [passedCount, twoOfThree, List.countP, List.countP.go]
  have hd : roundF (2/3 : ℚ) = 6004799503160661 / 9007199254740992 := by
    rw [roundF_eq_of (2/3 : ℚ) (-1) 6004799503160661 (by norm_num) (by norm_num) (by norm_num)
      (by norm_num) (by norm_num)]
    norm_num
  have hs : roundF ((6004799503160661 / 9007199254740992 : ℚ) * 100) =
      4691249611844266 / 70368744177664 := by
    rw [roundF_eq_of ((6004799503160661 / 9007199254740992 : ℚ) * 100) 6 4691249611844266
      (by norm_num) (by norm_num) (by norm_num) (by norm_num) (by norm_num)]
    norm_num
  rw [CalculateScore, if_neg (by norm_num [twoOfThree]), hq, hd, hs]
  norm_num

/-- The float64 score of 29 passed among 50: `(29.0/50.0)*100` double-rounds
to 57.99999999999999…, so the program returns 57 although the exact floor
of `100·29/50` is 58. -/
theorem calcScore_29_50 : CalculateScore (mixedResults 29 21) = 57 := by
  have hq : (passedCount (mixedResults 29 21) : ℚ) / ((mixedResults 29 21).length : ℚ) =
      29/50 := by
    rw [passedCount_mixedResults, length_mixedResults]
    norm_num
  have hd : roundF (29/50 : ℚ) = 5224175567749775 / 9007199254740992 := by
    rw [roundF_eq_of (29/50 : ℚ) (-1) 5224175567749775 (by norm_num) (by norm_num) (by norm_num)
      (by norm_num) (by norm_num)]
    norm_num
  have hs : roundF ((5224175567749775 / 9007199254740992 : ℚ) * 100) =
      8162774324609023 / 140737488355328 := by
    rw [roundF_eq_of ((5224175567749775 / 9007199254740992 : ℚ) * 100) 5 8162774324609023
      (by norm_num) (by norm_num) (by norm_num) (by norm_num) (by norm_num)]
    norm_num
  rw [CalculateScore, if_neg (by rw [length_mixedResults]; norm_num), hq, hd, hs]
  norm_num

/-! ## Claims -/

/-- C1 counterexample: with two of three results passed the program returns
66 — the truncated float64 product — while the claimed
`round(100 * passed / total)` is 67; the claim fails at this input. -/
theorem calculateScore_not_round :
    CalculateScore twoOfThree ≠
      round ((100 * (passedCount twoOfThree : ℚ)) / (twoOfThree.length : ℚ)) := by
  rw [calcScore_twoOfThree]
  norm_num [passedCount, twoOfThree, List.countP, List.countP.go, round_eq]

/-- C1 (amended): `CalculateScore` truncates the float64 product
`float64(passed)/float64(total)*100` toward zero rather than rounding it:
two of three passed yields 66, not round's 67, and float64 double rounding
can even drop the result below the exact floor — 29 of 50 yields 57 though
⌊100·29/50⌋ = 58. It returns 0 on the empty result set, and the returned
value always lies between 0 and 100 inclusive. -/
theorem calculateScore_float_truncation (results : List RuleResult) :
    CalculateScore [] = 0 ∧
    (0 ≤ CalculateScore results ∧ CalculateScore results ≤ 100) ∧
    CalculateScore twoOfThree = 66 ∧
    (CalculateScore (mixedResults 29 21) = 57 ∧
      (100 * passedCount (mixedResults 29 21)) / (mixedResults 29 21).length = 58) := by
  refine ⟨by simp [CalculateScore], ?_, calcScore_twoOfThree, calcScore_29_50, ?_⟩
  · rw [CalculateScore]
    split_ifs with hlen
    · norm_num
    · have hn : (0:ℚ) < (results.length : ℚ) := by
        have h0 : 0 < results.length := Nat.pos_of_ne_zero hlen
        exact_mod_cast h0
      have hq0 : 0 ≤ (passedCount results : ℚ) / (results.length : ℚ) := by positivity
      have hq1 : (passedCount results : ℚ) / (results.length : ℚ) ≤ 1 := by
        rw [div_le_one hn]
        exact_mod_cast (List.countP_le_length _ : passedCount results ≤ results.length)
      rcases eq_or_lt_of_le hq0 with hq00 | hqpos
      · have hr0 : roundF ((passedCount results : ℚ) / (results.length : ℚ)) = 0 := by
          rw [← hq00, roundF, if_pos le_rfl]
        have hr00 : roundF (roundF ((passedCount results : ℚ) / (results.length : ℚ)) * 100) =
            0 := by
          rw [hr0, zero_mul, roundF, if_pos le_rfl]
        rw [hr00]
        norm_num
      · have hd_pos := roundF_pos hqpos
        have hdle : roundF ((passedCount results : ℚ) / (results.length : ℚ)) ≤
            9007199254740993 / 9007199254740992 := by
          calc roundF ((passedCount results : ℚ) / (results.length : ℚ))
              ≤ (passedCount results : ℚ) / (results.length : ℚ) *
                  (9007199254740993 / 9007199254740992) := roundF_le_mul hqpos
            _ ≤ 1 * (9007199254740993 / 9007199254740992) :=
                mul_le_mul_of_nonneg_right hq1 (by norm_num)
            _ = 9007199254740993 / 9007199254740992 := one_mul _
        have hd100_pos : 0 < roundF ((passedCount results : ℚ) / (results.length : ℚ)) * 100 :=
          by positivity
        have hs_le := roundF_le_mul hd100_pos
        have hs_nonneg :=
          roundF_nonneg (roundF ((passedCount results : ℚ) / (results.length : ℚ)) * 100)
        refine ⟨Int.floor_nonneg.mpr hs_nonneg, ?_⟩
        have hs101 :
            roundF (roundF ((passedCount results : ℚ) / (results.length : ℚ)) * 100) <
              101 := by
          calc roundF (roundF ((passedCount results : ℚ) / (results.length : ℚ)) * 100)
              ≤ roundF ((passedCount results : ℚ) / (results.length : ℚ)) * 100 *
                  (9007199254740993 / 9007199254740992) := hs_le
            _ ≤ 9007199254740993 / 9007199254740992 * 100 *
                  (9007199254740993 / 9007199254740992) :=
                mul_le_mul_of_nonneg_right
                  (mul_le_mul_of_nonneg_right hdle (by norm_num)) (by norm_num)
            _ < 101 := by norm_num
        have hfl := Int.floor_lt.mpr (show roundF (roundF ((passedCount results : ℚ) /
            (results.length : ℚ)) * 100) < ((101 : ℤ) : ℚ) by exact_mod_cast hs101)
        omega
  · rw [passedCount_mixedResults, length_mixedResults]

set_option maxHeartbeats 2000000 in
/-- C2: `Grade` maps the pass percentage through the fixed descending
threshold table with boundaries inclusive on the lower edge of each band;
an empty result set grades "F"; and the four boundary instances hold:
49 of 100 is "F", 50 of 100 is "D", 90 of 100 is "A", 95 of 100 is "A+". -/
theorem grade_threshold_table (results : List RuleResult) :
    (Grade results = "A+" ↔ results ≠ [] ∧ 95 ≤ percentage results) ∧
    (Grade results = "A" ↔ results ≠ [] ∧ 90 ≤ percentage results ∧ percentage results < 95) ∧
    (Grade results = "A-" ↔ results ≠ [] ∧ 85 ≤ percentage results ∧ percentage results < 90) ∧
    (Grade results = "B+" ↔ results ≠ [] ∧ 80 ≤ percentage results ∧ percentage results < 85) ∧
    (Grade results = "B" ↔ results ≠ [] ∧ 75 ≤ percentage results ∧ percentage results < 80) ∧
    (Grade results = "B-" ↔ results ≠ [] ∧ 70 ≤ percentage results ∧ percentage results < 75) ∧
    (Grade results = "C+" ↔ results ≠ [] ∧ 65 ≤ percentage results ∧ percentage results < 70) ∧
    (Grade results = "C" ↔ results ≠ [] ∧ 60 ≤ percentage results ∧ percentage results < 65) ∧
    (Grade results = "C-" ↔ results ≠ [] ∧ 55 ≤ percentage results ∧ percentage results < 60) ∧
    (Grade results = "D" ↔ results ≠ [] ∧ 50 ≤ percentage results ∧ percentage results < 55) ∧
    (Grade results = "F" ↔ results = [] ∨ percentage results < 50) ∧
    Grade [] = "F" ∧
    Grade (mixedResults 49 51) = "F" ∧
    Grade (mixedResults 50 50) = "D" ∧
    Grade (mixedResults 90 10) = "A" ∧
    Grade (mixedResults 95 5) = "A+" := by
  have hmix : ∀ p q : ℕ, percentage (mixedResults p q) = (p : ℚ) / ((p + q : ℕ) : ℚ) * 100 := by
    intro p q
    rw [percentage, passedCount_mixedResults, length_mixedResults]
  have hmain : ∀ rs : List RuleResult,
      (Grade rs = "A+" ↔ rs ≠ [] ∧ 95 ≤ percentage rs) ∧
      (Grade rs = "A" ↔ rs ≠ [] ∧ 90 ≤ percentage rs ∧ percentage rs < 95) ∧
      (Grade rs = "A-" ↔ rs ≠ [] ∧ 85 ≤ percentage rs ∧ percentage rs < 90) ∧
      (Grade rs = "B+" ↔ rs ≠ [] ∧ 80 ≤ percentage rs ∧ percentage rs < 85) ∧
      (Grade rs = "B" ↔ rs ≠ [] ∧ 75 ≤ percentage rs ∧ percentage rs < 80) ∧
      (Grade rs = "B-" ↔ rs ≠ [] ∧ 70 ≤ percentage rs ∧ percentage rs < 75) ∧
      (Grade rs = "C+" ↔ rs ≠ [] ∧ 65 ≤ percentage rs ∧ percentage rs < 70) ∧
      (Grade rs = "C" ↔ rs ≠ [] ∧ 60 ≤ percentage rs ∧ percentage rs < 65) ∧
      (Grade rs = "C-" ↔ rs ≠ [] ∧ 55 ≤ percentage rs ∧ percentage rs < 60) ∧
      (Grade rs = "D" ↔ rs ≠ [] ∧ 50 ≤ percentage rs ∧ percentage rs < 55) ∧
      (Grade rs = "F" ↔ rs = [] ∨ percentage rs < 50) := by
    intro rs
    by_cases hres : rs = []
    · subst hres
      have hpct : percentage ([] : List RuleResult) = 0 := by
        simp [percentage, passedCount]
      simp [Grade, hpct]
    · have hlen : ¬ (rs.length = 0) := by
        simpa [List.length_eq_zero] using hres
      simp only [Grade, if_neg hlen, percentage, ne_eq, hres, not_false_eq_true, true_and,
        false_or]
      split_ifs with h1 h2 h3 h4 h5 h6 h7 h8 h9 h10 <;>
        refine ⟨?_, ?_, ?_, ?_, ?_, ?_, ?_, ?_, ?_, ?_, ?_⟩ <;>
        first
          | (apply iff_of_true rfl (by linarith))
          | (apply iff_of_true rfl (by constructor <;> linarith))
          | (apply iff_of_false (by decide)
              (by intro hcon; obtain ⟨hA, hB⟩ := hcon; linarith))
          | (apply iff_of_false (by decide) (by intro hcon; linarith))
  refine ⟨(hmain results).1, (hmain results).2.1, (hmain results).2.2.1, (hmain results).2.2.2.1,
    (hmain results).2.2.2.2.1, (hmain results).2.2.2.2.2.1, (hmain results).2.2.2.2.2.2.1,
    (hmain results).2.2.2.2.2.2.2.1, (hmain results).2.2.2.2.2.2.2.2.1,
    (hmain results).2.2.2.2.2.2.2.2.2.1, (hmain results).2.2.2.2.2.2.2.2.2.2, ?_, ?_, ?_, ?_, ?_⟩
  · simp [Grade]
  · refine ((hmain (mixedResults 49 51)).2.2.2.2.2.2.2.2.2.2).2 (Or.inr ?_)
    rw [hmix]
    norm_num
  · refine ((hmain (mixedResults 50 50)).2.2.2.2.2.2.2.2.2.1).2 ⟨by simp [mixedResults], ?_⟩
    rw [hmix]
    norm_num
  · refine ((hmain (mixedResults 90 10)).2.1).2 ⟨by simp [mixedResults], ?_⟩
    rw [hmix]
    norm_num
  · refine ((hmain (mixedResults 95 5)).1).2 ⟨by simp [mixedResults], ?_⟩
    rw [hmix]
    norm_num

/-- A version string satisfies `goHasPrefix v "3."` exactly when it begins
with "3.". -/
theorem goHasPrefix_three_iff (v : String) :
    goHasPrefix v "3." = true ↔ ∃ rest, v = "3." ++ rest := by
  unfold goHasPrefix
  rw [List.isPrefixOf_iff_prefix]
  constructor
  · rintro ⟨t, ht⟩
    refine ⟨⟨t⟩, String.ext ?_⟩
    rw [String.data_append]
    exact ht.symm
  · rintro ⟨rest, hrest⟩
    subst hrest
    exact ⟨rest.data, (String.data_append _ _).symm⟩

/-- C4: every built-in rule applies exactly to version strings beginning
with "3."; the registry filter returns no built-in rule for "2.0" or
"4.0.0" and all eight built-ins, in registration order, for "3.1.0". -/
theorem appliesTo_version_gate :
    (∀ rule : RuleT, ∀ version : String,
      rule.appliesTo version = true ↔ ∃ rest, version = "3." ++ rest) ∧
    RulesForVersion registerRules "2.0" = [] ∧
    RulesForVersion registerRules "4.0.0" = [] ∧
    RulesForVersion registerRules "3.1.0" = registerRules ∧
    registerRules.length = 8 := by
  refine ⟨?_, by decide, by decide, by decide, by decide⟩
  intro rule version
  cases rule <;> exact goHasPrefix_three_iff version

/-- Every rule's evaluation result carries that rule's ID. -/
theorem evaluate_ruleID (rule : RuleT) (ctx : SpecContext) :
    (rule.evaluate ctx).ruleID = rule.id := by
  cases rule <;>
    simp only [RuleT.evaluate, RuleT.id, InfoTitleRule.Evaluate, InfoVersionRule.Evaluate,
      PathsExistRule.Evaluate, OperationIDRule.Evaluate, SchemaExampleConsistencyRule.Evaluate,
      OperationDescriptionRule.Evaluate, ErrorResponseRule.Evaluate,
      SecuritySchemeRule.Evaluate] <;>
    (repeat' split) <;> rfl

/-- The runner loop over any rule list: no skipped ID in the output, the
output length is the rule count minus the skipped-rule count, and output IDs
form a sublist of the rule list's IDs. -/
theorem length_filterMap_skip {α β : Type _} (f : α → β) (p : α → Bool) (l : List α) :
    (l.filterMap (fun a => if p a then none else some (f a))).length =
      l.length - (l.filter p).length := by
  induction l with
  | nil => rfl
  | cons a l ih =>
    have hle := List.length_filter_le p l
    by_cases hpa : p a
    · simp [hpa, ih]
    · simp [hpa, ih]
      omega

theorem map_filterMap_skip_sublist {α β γ : Type _} (f : α → β) (p : α → Bool)
    (g : β → γ) (h : α → γ) (hgf : ∀ a, g (f a) = h a) (l : List α) :
    ((l.filterMap (fun a => if p a then none else some (f a))).map g).Sublist (l.map h) := by
  induction l with
  | nil => simp
  | cons a l ih =>
    by_cases hpa : p a
    · simpa [hpa] using ih.cons (h a)
    · simpa [hpa, hgf a] using ih.cons₂ (h a)

theorem run_filterMap_props (rules : List RuleT) (skips : List String) (ctx : SpecContext) :
    ((rules.filterMap (fun rule =>
        if skips.contains rule.id then none else some (rule.evaluate ctx))).filter
      (fun r => skips.contains r.ruleID)) = [] ∧
    (rules.filterMap (fun rule =>
        if skips.contains rule.id then none else some (rule.evaluate ctx))).length =
      rules.length - (rules.filter (fun rule => skips.contains rule.id)).length ∧
    ((rules.filterMap (fun rule =>
        if skips.contains rule.id then none else some (rule.evaluate ctx))).map
      RuleResult.ruleID).Sublist (rules.map RuleT.id) := by
  refine ⟨?_, ?_, ?_⟩
  · rw [List.filter_eq_nil_iff]
    intro r hr
    obtain ⟨rule, hrule, hf⟩ := List.mem_filterMap.mp hr
    by_cases hskip : skips.contains rule.id
    · rw [if_pos hskip] at hf
      exact absurd hf (by simp)
    · rw [if_neg hskip] at hf
      have hev : rule.evaluate ctx = r := Option.some.inj hf
      rw [← hev, evaluate_ruleID]
      exact hskip
  · exact length_filterMap_skip (fun rule => rule.evaluate ctx)
      (fun rule => skips.contains rule.id) rules
  · exact map_filterMap_skip_sublist (fun rule => rule.evaluate ctx)
      (fun rule => skips.contains rule.id) RuleResult.ruleID RuleT.id
      (fun rule => evaluate_ruleID rule ctx) rules

/-- C5: for every document, version and skip set, the runner's output has no
result whose rule ID is skipped, its length equals the applicable-rule count
minus the skipped applicable count, and the result IDs are a subsequence of
the registration order. -/
theorem runner_skip_law (registered : List RuleT) (skips : List String) (ctx : SpecContext) :
    ((Runner.Run registered skips ctx).filter (fun r => skips.contains r.ruleID)) = [] ∧
    (Runner.Run registered skips ctx).length =
      (RulesForVersion registered ctx.version).length -
        ((RulesForVersion registered ctx.version).filter
          (fun rule => skips.contains rule.id)).length ∧
    ((Runner.Run registered skips ctx).map RuleResult.ruleID).Sublist
      (registered.map RuleT.id) := by
  obtain ⟨h1, h2, h3⟩ := run_filterMap_props (RulesForVersion registered ctx.version) skips ctx
  exact ⟨h1, h2, h3.trans ((List.filter_sublist registered).map RuleT.id)⟩

/-- C6 counterexample: a present info section with the non-empty three-byte
title "API" produces a FAILING result (the short-title soft tier has
`passed = false`, severity "warning"), contradicting the claim that any
non-empty title passes. -/
theorem infoTitle_short_title_fails :
    InfoTitleRule.Evaluate ⟨{ info := some { title := "API", version := "1.0.0" } }, "3.1.0"⟩ =
      { ruleID := "info-title", passed := false,
        detail := "Title too short: 'API' (minimum 5 characters recommended)",
        severity := "warning", category := "documentation" } := by
  decide

/-- C6 (amended): the info-title rule fails exactly when the info section is
absent or the title is shorter than 5 bytes (the empty title is the special
case of byte length 0); a non-empty title shorter than 5 bytes fails as the
soft tier with severity "warning" (absence and empty-title failures carry
severity "error"), rather than passing. -/
theorem infoTitle_failure_condition (ctx : SpecContext) :
    ((InfoTitleRule.Evaluate ctx).passed = false ↔
      ctx.spec.info = none ∨
        ∃ info, ctx.spec.info = some info ∧ info.title.utf8ByteSize < 5) ∧
    ((InfoTitleRule.Evaluate ctx).severity = "warning" ↔
      ∃ info, ctx.spec.info = some info ∧ info.title ≠ "" ∧ info.title.utf8ByteSize < 5) := by
  obtain ⟨⟨info?, paths, comps, store⟩, version⟩ := ctx
  cases info? with
  | none => simp [InfoTitleRule.Evaluate]
  | some info =>
    simp only [InfoTitleRule.Evaluate]
    split_ifs with h1 h2
    · simp [h1]
      decide
    · simp [h1, h2]
    · simp [h1, h2]

/-- C7 counterexample: the float 1e19 is integral (zero fractional part)
but lies beyond int64 range, so Go's `f == float64(int64(f))` check rejects
it and the program reports a mismatch against type "integer"; the claim's
zero-fraction criterion says it should be accepted. -/
theorem exampleType_integer_overflow :
    isExampleValidForType (.float ((10 ^ 19 : ℤ) : ℚ)) "integer" = false ∧
    ((10 ^ 19 : ℤ) : ℚ).den = 1 := by
  refine ⟨?_, Rat.den_intCast _⟩
  simp only [isExampleValidForType, Rat.den_intCast, Rat.num_intCast]
  norm_num

/-- C7 (amended): the example/type compatibility table: strings need string
examples, integers need integral numbers representable in int64 (an int, or
a float with zero fractional part whose value fits in [-2^63, 2^63)),
numbers any numeric value, booleans a boolean, arrays a sequence, objects a
mapping, and every unknown or empty type is compatible. -/
theorem exampleType_table (ex : ExampleVal) :
    (isExampleValidForType ex "string" = true ↔ ∃ s, ex = .str s) ∧
    (isExampleValidForType ex "integer" = true ↔
      (∃ n, ex = .int n) ∨
        ∃ q, ex = .float q ∧ q.den = 1 ∧ -(2 ^ 63) ≤ q.num ∧ q.num < 2 ^ 63) ∧
    (isExampleValidForType ex "number" = true ↔
      (∃ n, ex = .int n) ∨ ∃ q, ex = .float q) ∧
    (isExampleValidForType ex "boolean" = true ↔ ∃ b, ex = .bool b) ∧
    (isExampleValidForType ex "array" = true ↔ ∃ elems, ex = .arr elems) ∧
    (isExampleValidForType ex "object" = true ↔ ∃ fields, ex = .obj fields) ∧
    (∀ t : String, t ∉ ["string", "integer", "number", "boolean", "array", "object"] →
      isExampleValidForType ex t = true) := by
  refine ⟨?_, ?_, ?_, ?_, ?_, ?_, ?_⟩
  · cases ex <;> simp [isExampleValidForType]
  · cases ex <;> simp [isExampleValidForType, and_assoc]
  · cases ex <;> simp [isExampleValidForType]
  · cases ex <;> simp [isExampleValidForType]
  · cases ex <;> simp [isExampleValidForType]
  · cases ex <;> simp [isExampleValidForType]
  · intro t ht
    unfold isExampleValidForType
    split <;> simp_all

/-- C7 witness: a concrete unknown type is compatible with any example. -/
theorem exampleType_table_witness :
    ("date-time" ∉ ["string", "integer", "number", "boolean", "array", "object"]) ∧
    isExampleValidForType (.int 3) "date-time" = true :=
  ⟨by decide, (exampleType_table (.int 3)).2.2.2.2.2.2 "date-time" (by decide)⟩

/-- C9: the empty document (empty non-nil path map, no info, no components)
run at "3.1.0" yields exactly eight results carrying the eight registered
rule IDs in registration order; every rule guarded by a no-paths check
passes with an explanatory detail, and the only result reporting the absent
paths as a failure is paths-exist. -/
theorem empty_document_results :
    (Runner.Run registerRules [] ⟨emptyDoc, "3.1.0"⟩).length = 8 ∧
    (Runner.Run registerRules [] ⟨emptyDoc, "3.1.0"⟩).map RuleResult.ruleID =
      registerRules.map RuleT.id ∧
    ((Runner.Run registerRules [] ⟨emptyDoc, "3.1.0"⟩).filter (fun r =>
        ["operation-operationId-unique", "operation-description",
         "operation-success-response"].contains r.ruleID)).all
      (fun r => r.passed && !(r.detail == "")) = true ∧
    ((Runner.Run registerRules [] ⟨emptyDoc, "3.1.0"⟩).filter (fun r =>
        !r.passed && r.detail == "No paths defined")).map RuleResult.ruleID =
      ["paths-exist"] := by
  refine ⟨by decide, by decide, by decide, by decide⟩

/-- C10: `RunRule` returns a nil result with a nil error both when no
registered rule has the requested ID and when the matching rule's
`AppliesTo` is false for the context's version, and its error component is
nil in every case; concretely, an unknown rule ID and the known but
non-applicable "info-title" at version "2.0" are indistinguishable. -/
theorem runRule_nil_nil (registered : List RuleT) (ctx : SpecContext) (ruleID : String) :
    (Runner.RunRule registered ctx ruleID).2 = none ∧
    (GetRule registered ruleID = none →
      Runner.RunRule registered ctx ruleID = (none, none)) ∧
    (∀ rule, GetRule registered ruleID = some rule → rule.appliesTo ctx.version = false →
      Runner.RunRule registered ctx ruleID = (none, none)) ∧
    Runner.RunRule registerRules ⟨emptyDoc, "3.1.0"⟩ "no-such-rule" = (none, none) ∧
    Runner.RunRule registerRules ⟨emptyDoc, "3.1.0"⟩ "no-such-rule" =
      Runner.RunRule registerRules ⟨emptyDoc, "2.0"⟩ "info-title" := by
  refine ⟨?_, ?_, ?_, by decide, by decide⟩
  · unfold Runner.RunRule
    (repeat' split) <;> rfl
  · intro hnone
    unfold Runner.RunRule
    simp only [hnone]
  · intro rule hsome happ
    unfold Runner.RunRule
    simp only [hsome, happ]
    simp

/-- C3: the schema-example traversal stops at any node already on the
current path (returning no issue for it), stops beyond the depth cap, emits
no issue at all — in particular none for cycles — whenever every node's
direct type/example check passes, and on the concrete two-schema cycle
(A.child referencing B, B.parent referencing A) it terminates with a passing
result. -/
theorem schema_traversal_cycle_safe :
    (∀ (store : Nat → Schema) (name : String) (sid : Nat) (path : String) (depth : Nat)
      (visited : List Nat), sid ∈ visited →
        checkSchemaExamplesWithDepth store name sid path depth visited = []) ∧
    (∀ (store : Nat → Schema) (name : String) (sid : Nat) (path : String) (depth : Nat)
      (visited : List Nat), depth > 10 →
        checkSchemaExamplesWithDepth store name sid path depth visited = []) ∧
    (∀ store : Nat → Schema, (∀ n, schemaNodeOK (store n) = true) →
      ∀ (name : String) (sid : Nat) (path : String) (depth : Nat) (visited : List Nat),
        checkSchemaExamplesWithDepth store name sid path depth visited = []) ∧
    SchemaExampleConsistencyRule.Evaluate ⟨cycleDoc, "3.1.0"⟩ =
      { ruleID := "oas3-valid-schema-example", passed := true,
        detail := "All schema examples match their declared types" } := by
  have hvisited : ∀ (store : Nat → Schema) (name : String) (sid : Nat) (path : String)
      (depth : Nat) (visited : List Nat), sid ∈ visited →
      checkSchemaExamplesWithDepth store name sid path depth visited = [] := by
    intro store name sid path depth visited hmem
    rw [checkSchemaExamplesWithDepth.eq_def, dif_pos (Or.inr hmem)]
  have hdepthcap : ∀ (store : Nat → Schema) (name : String) (sid : Nat) (path : String)
      (depth : Nat) (visited : List Nat), depth > 10 →
      checkSchemaExamplesWithDepth store name sid path depth visited = [] := by
    intro store name sid path depth visited hdepth
    rw [checkSchemaExamplesWithDepth.eq_def, dif_pos (Or.inl hdepth)]
  have hcleanstore : ∀ store : Nat → Schema, (∀ n, schemaNodeOK (store n) = true) →
      ∀ (name : String) (sid : Nat) (path : String) (depth : Nat) (visited : List Nat),
        checkSchemaExamplesWithDepth store name sid path depth visited = [] := by
    intro store hclean
    suffices h : ∀ (fuel : Nat) (name : String) (sid : Nat) (path : String) (depth : Nat)
        (visited : List Nat), 11 - depth ≤ fuel →
        checkSchemaExamplesWithDepth store name sid path depth visited = [] by
      intro name sid path depth visited
      exact h (11 - depth) name sid path depth visited le_rfl
    intro fuel
    induction fuel with
    | zero =>
      intro name sid path depth visited hf
      rw [checkSchemaExamplesWithDepth.eq_def, dif_pos (Or.inl (by omega))]
    | succ n ih =>
      intro name sid path depth visited hf
      rw [checkSchemaExamplesWithDepth.eq_def]
      by_cases hguard : depth > 10 ∨ sid ∈ visited
      · rw [dif_pos hguard]
      · rw [dif_neg hguard]
        have hdepth : ¬ depth > 10 := fun hc => hguard (Or.inl hc)
        simp only [List.append_eq_nil]
        constructor
        · have hnode := hclean sid
          unfold schemaNodeOK at hnode
          cases hex : (store sid).example? with
          | none => simp [hex]
          | some ex =>
            rw [hex] at hnode
            rcases Bool.or_eq_true _ _ |>.mp hnode with htype | hvalid
            · simp [hex, beq_iff_eq.mp htype]
            · simp [hex, hvalid]
        · rw [List.flatMap_eq_nil_iff]
          intro p hp
          cases p.2 with
          | none => rfl
          | some pid =>
            simp only []
            exact ih name pid _ (depth + 1) (sid :: visited) (by omega)
  refine ⟨hvisited, hdepthcap, hcleanstore, ?_⟩
  have hcycleclean : ∀ n, schemaNodeOK (cycleStore n) = true := by
    intro n
    rcases n with _ | n <;> rfl
  have hA : checkSchemaExamples cycleStore "A" 0 "" = [] :=
    hcleanstore cycleStore hcycleclean "A" 0 "" 0 []
  have hB : checkSchemaExamples cycleStore "B" 1 "" = [] :=
    hcleanstore cycleStore hcycleclean "B" 1 "" 0 []
  simp [SchemaExampleConsistencyRule.Evaluate, cycleDoc, hA, hB]

/-- C3 witness: the visited-set stop and the depth cap applied on the
two-schema cycle at concrete arguments. -/
theorem schema_traversal_cycle_safe_witness :
    ((0 : Nat) ∈ [0] ∧ checkSchemaExamplesWithDepth cycleStore "A" 0 "" 2 [0] = []) ∧
    (11 > 10 ∧ checkSchemaExamplesWithDepth cycleStore "A" 0 "" 11 [] = []) ∧
    ((∀ n, schemaNodeOK (cycleStore n) = true) ∧
      checkSchemaExamplesWithDepth cycleStore "B" 1 "" 0 [] = []) :=
  ⟨⟨by decide, schema_traversal_cycle_safe.1 cycleStore "A" 0 "" 2 [0] (by decide)⟩,
   ⟨by decide, schema_traversal_cycle_safe.2.1 cycleStore "A" 0 "" 11 [] (by decide)⟩,
   ⟨fun n => by rcases n with _ | n <;> rfl,
    schema_traversal_cycle_safe.2.2.1 cycleStore
      (fun n => by rcases n with _ | n <;> rfl) "B" 1 "" 0 []⟩⟩

/-- Permutations carry the same finset of elements. -/
theorem perm_toFinset {α : Type _} [DecidableEq α] {l1 l2 : List α} (h : l1.Perm l2) :
    l1.toFinset = l2.toFinset := by
  ext a
  simp [List.mem_toFinset, h.mem_iff]

/-- Characterization of the operation-ID counting fold: the missing counter
adds the number of empty IDs; the duplicate counter adds the number of
non-empty ID occurrences beyond the first of each ID not already seen. -/
theorem opIDFold_spec (ops : List Operation) :
    ∀ (seen : List String) (m d : Nat),
      (ops.foldl opIDStep (seen, m, d)).2.1 =
        m + ops.countP (fun op => op.operationId == "") ∧
      (ops.foldl opIDStep (seen, m, d)).2.2 =
        d + ((nonEmptyIds ops).length -
          ((nonEmptyIds ops).toFinset \ seen.toFinset).card) ∧
      ((nonEmptyIds ops).toFinset \ seen.toFinset).card ≤ (nonEmptyIds ops).length := by
  induction ops with
  | nil =>
    intro seen m d
    simp [nonEmptyIds]
  | cons op rest ih =>
    intro seen m d
    by_cases hid : op.operationId = ""
    · have hstep : opIDStep (seen, m, d) op = (seen, m + 1, d) := by
        simp [opIDStep, hid]
      have hids : nonEmptyIds (op :: rest) = nonEmptyIds rest :=
        List.filterMap_cons_none (by simp [hid])
      have hcnt : (op :: rest).countP (fun op => op.operationId == "") =
          rest.countP (fun op => op.operationId == "") + 1 :=
        List.countP_cons_of_pos _ _ (by simp [hid])
      obtain ⟨ih1, ih2, ih3⟩ := ih seen (m + 1) d
      rw [List.foldl_cons, hstep]
      refine ⟨?_, ?_, ?_⟩
      · rw [ih1, hcnt]
        omega
      · rw [ih2, hids]
      · rw [hids]
        exact ih3
    · have hids : nonEmptyIds (op :: rest) = op.operationId :: nonEmptyIds rest :=
        List.filterMap_cons_some (by simp [hid])
      have hcnt : (op :: rest).countP (fun op => op.operationId == "") =
          rest.countP (fun op => op.operationId == "") :=
        List.countP_cons_of_neg _ _ (by simp [hid])
      have hrestcard : ((nonEmptyIds rest).toFinset \ seen.toFinset).card ≤
          (nonEmptyIds rest).length :=
        le_trans (Finset.card_le_card Finset.sdiff_subset)
          (le_trans (List.toFinset_card_le _) le_rfl)
      by_cases hseen : seen.contains op.operationId
      · have hmem0 : op.operationId ∈ seen := by
          simpa using hseen
        have hstep : opIDStep (seen, m, d) op = (seen, m, d + 1) := by
          simp [opIDStep, hid, hmem0]
        have hmem : op.operationId ∈ seen.toFinset := List.mem_toFinset.mpr hmem0
        have hins : (op.operationId :: nonEmptyIds rest).toFinset \ seen.toFinset =
            (nonEmptyIds rest).toFinset \ seen.toFinset := by
          rw [List.toFinset_cons, Finset.insert_sdiff_of_mem _ hmem]
        obtain ⟨ih1, ih2, ih3⟩ := ih seen m (d + 1)
        rw [List.foldl_cons, hstep]
        refine ⟨?_, ?_, ?_⟩
        · rw [ih1, hcnt]
        · rw [ih2, hids, hins, List.length_cons]
          omega
        · rw [hids, hins, List.length_cons]
          omega
      · have hnmem0 : op.operationId ∉ seen := by
          simpa using hseen
        have hstep : opIDStep (seen, m, d) op = (op.operationId :: seen, m, d) := by
          simp [opIDStep, hid, hnmem0]
        have hnmem : op.operationId ∉ seen.toFinset := by
          rw [List.mem_toFinset]
          exact hnmem0
        have hsd1 : (nonEmptyIds rest).toFinset \ (op.operationId :: seen).toFinset =
            ((nonEmptyIds rest).toFinset \ seen.toFinset).erase op.operationId := by
          rw [List.toFinset_cons, Finset.sdiff_insert]
        have hsd2 : (op.operationId :: nonEmptyIds rest).toFinset \ seen.toFinset =
            insert op.operationId ((nonEmptyIds rest).toFinset \ seen.toFinset) := by
          rw [List.toFinset_cons, Finset.insert_sdiff_of_not_mem _ hnmem]
        obtain ⟨ih1, ih2, ih3⟩ := ih (op.operationId :: seen) m d
        rw [List.foldl_cons, hstep]
        by_cases hx : op.operationId ∈ (nonEmptyIds rest).toFinset \ seen.toFinset
        · have hcard1 : (((nonEmptyIds rest).toFinset \ seen.toFinset).erase
              op.operationId).card =
              ((nonEmptyIds rest).toFinset \ seen.toFinset).card - 1 :=
            Finset.card_erase_of_mem hx
          have hcard2 : (insert op.operationId
              ((nonEmptyIds rest).toFinset \ seen.toFinset)).card =
              ((nonEmptyIds rest).toFinset \ seen.toFinset).card :=
            Finset.card_insert_of_mem hx
          have hpos : 0 < ((nonEmptyIds rest).toFinset \ seen.toFinset).card :=
            Finset.card_pos.mpr ⟨_, hx⟩
          refine ⟨?_, ?_, ?_⟩
          · rw [ih1, hcnt]
          · rw [ih2, hids, hsd2, hcard2, List.length_cons, hsd1, hcard1]
            omega
          · rw [hids, hsd2, hcard2, List.length_cons]
            omega
        · have hcard1 : (((nonEmptyIds rest).toFinset \ seen.toFinset).erase
              op.operationId).card =
              ((nonEmptyIds rest).toFinset \ seen.toFinset).card := by
            rw [Finset.erase_eq_of_not_mem hx]
          have hcard2 : (insert op.operationId
              ((nonEmptyIds rest).toFinset \ seen.toFinset)).card =
              ((nonEmptyIds rest).toFinset \ seen.toFinset).card + 1 :=
            Finset.card_insert_of_not_mem hx
          refine ⟨?_, ?_, ?_⟩
          · rw [ih1, hcnt]
          · rw [ih2, hids, hsd2, hcard2, List.length_cons, hsd1, hcard1]
            omega
          · rw [hids, hsd2, hcard2, List.length_cons]
            omega

/-- The operation-ID counters are invariant under permutations of the
operation sequence. -/
theorem opIDCounts_perm {ops1 ops2 : List Operation} (h : ops1.Perm ops2) :
    (ops1.foldl opIDStep ([], 0, 0)).2.1 = (ops2.foldl opIDStep ([], 0, 0)).2.1 ∧
    (ops1.foldl opIDStep ([], 0, 0)).2.2 = (ops2.foldl opIDStep ([], 0, 0)).2.2 := by
  obtain ⟨h11, h12, -⟩ := opIDFold_spec ops1 [] 0 0
  obtain ⟨h21, h22, -⟩ := opIDFold_spec ops2 [] 0 0
  have hperm : (nonEmptyIds ops1).Perm (nonEmptyIds ops2) := h.filterMap _
  constructor
  · rw [h11, h21, h.countP_eq]
  · rw [h12, h22, hperm.length_eq, perm_toFinset hperm]

/-- Option-lifted permutations of lists relate their `getD []` unwrappings. -/
theorem optRel_perm_getD {α : Type _} {o1 o2 : Option (List α)}
    (h : optRel List.Perm o1 o2) : (o1.getD []).Perm (o2.getD []) := by
  cases o1 <;> cases o2 <;> simp_all [optRel]

/-- The schema-example traversal returns permutation-equal issue lists over
two stores presenting the same schema objects with permuted property maps. -/
theorem checkAux_perm {st1 st2 : Nat → Schema} (hst : ∀ n, Schema.Equiv (st1 n) (st2 n)) :
    ∀ (fuel : Nat) (name : String) (sid : Nat) (path : String) (depth : Nat)
      (visited : List Nat), 11 - depth ≤ fuel →
      (checkSchemaExamplesWithDepth st1 name sid path depth visited).Perm
        (checkSchemaExamplesWithDepth st2 name sid path depth visited) := by
  intro fuel
  induction fuel with
  | zero =>
    intro name sid path depth visited hf
    rw [checkSchemaExamplesWithDepth.eq_def, dif_pos (Or.inl (by omega : depth > 10))]
    rw [checkSchemaExamplesWithDepth.eq_def, dif_pos (Or.inl (by omega : depth > 10))]
  | succ n ih =>
    intro name sid path depth visited hf
    by_cases hguard : depth > 10 ∨ sid ∈ visited
    · rw [checkSchemaExamplesWithDepth.eq_def, dif_pos hguard]
      rw [checkSchemaExamplesWithDepth.eq_def, dif_pos hguard]
    · rw [checkSchemaExamplesWithDepth.eq_def, dif_neg hguard]
      rw [checkSchemaExamplesWithDepth.eq_def, dif_neg hguard]
      obtain ⟨hty, hex, hprops⟩ := hst sid
      have hdepth : ¬ depth > 10 := fun hc => hguard (Or.inl hc)
      simp only [hty, hex]
      refine List.Perm.append (List.Perm.refl _) ?_
      refine List.Perm.trans (List.Perm.flatMap_left _ ?_) (hprops.flatMap_right _)
      intro p hp
      obtain ⟨pname, pid?⟩ := p
      cases pid? with
      | none => exact List.Perm.refl []
      | some pid => exact ih name pid _ (depth + 1) (sid :: visited) (by omega)

/-- Under document equivalence every built-in rule evaluates to the same
rule ID and the same pass verdict; every rule except the schema-example rule
evaluates to a byte-identical result (only that rule's detail text can
depend on map iteration order). -/
theorem evaluate_equiv {d1 d2 : Document} (h : Document.Equiv d1 d2) (version : String)
    (rule : RuleT) :
    (rule.evaluate ⟨d1, version⟩).ruleID = (rule.evaluate ⟨d2, version⟩).ruleID ∧
    (rule.evaluate ⟨d1, version⟩).passed = (rule.evaluate ⟨d2, version⟩).passed ∧
    (rule ≠ RuleT.schemaExampleConsistency →
      rule.evaluate ⟨d1, version⟩ = rule.evaluate ⟨d2, version⟩) := by
  obtain ⟨hinfo, hpaths, hcomps, hstore⟩ := h
  have hid : (rule.evaluate ⟨d1, version⟩).ruleID = (rule.evaluate ⟨d2, version⟩).ruleID :=
    (evaluate_ruleID rule _).trans (evaluate_ruleID rule _).symm
  have hpperm : ((d1.paths.getD []) : List (String × PathItem)).Perm (d2.paths.getD []) :=
    optRel_perm_getD hpaths
  have hplen : (d1.paths.getD []).length = (d2.paths.getD []).length := hpperm.length_eq
  have hopsperm : (documentOperations (d1.paths.getD [])).Perm
      (documentOperations (d2.paths.getD [])) := hpperm.flatMap_right _
  cases rule with
  | infoTitle =>
    have heq : RuleT.evaluate .infoTitle ⟨d1, version⟩ =
        RuleT.evaluate .infoTitle ⟨d2, version⟩ := by
      simp only [RuleT.evaluate, InfoTitleRule.Evaluate, hinfo]
    exact ⟨hid, by rw [heq], fun _ => heq⟩
  | infoVersion =>
    have heq : RuleT.evaluate .infoVersion ⟨d1, version⟩ =
        RuleT.evaluate .infoVersion ⟨d2, version⟩ := by
      simp only [RuleT.evaluate, InfoVersionRule.Evaluate, hinfo]
    exact ⟨hid, by rw [heq], fun _ => heq⟩
  | pathsExist =>
    have heq : RuleT.evaluate .pathsExist ⟨d1, version⟩ =
        RuleT.evaluate .pathsExist ⟨d2, version⟩ := by
      simp only [RuleT.evaluate, PathsExistRule.Evaluate, hplen]
    exact ⟨hid, by rw [heq], fun _ => heq⟩
  | operationID =>
    have heq : RuleT.evaluate .operationID ⟨d1, version⟩ =
        RuleT.evaluate .operationID ⟨d2, version⟩ := by
      cases hp1 : d1.paths with
      | none =>
        cases hp2 : d2.paths with
        | none => simp only [RuleT.evaluate, OperationIDRule.Evaluate, hp1, hp2]
        | some l2 =>
          rw [hp1, hp2] at hpaths
          exact hpaths.elim
      | some l1 =>
        cases hp2 : d2.paths with
        | none =>
          rw [hp1, hp2] at hpaths
          exact hpaths.elim
        | some l2 =>
          have hperm12 : l1.Perm l2 := by
            rw [hp1, hp2] at hpaths
            exact hpaths
          obtain ⟨hc1, hc2⟩ := opIDCounts_perm (hperm12.flatMap_right
            (fun p => p.2.operations.filterMap id))
          simp only [RuleT.evaluate, OperationIDRule.Evaluate, hp1, hp2, documentOperations]
          simp only [hc1, hc2]
    exact ⟨hid, by rw [heq], fun _ => heq⟩
  | operationDescription =>
    have hmiss : (documentOperations (d1.paths.getD [])).countP
        (fun op => op.description = "") =
        (documentOperations (d2.paths.getD [])).countP (fun op => op.description = "") :=
      hopsperm.countP_eq _
    have hshort : (documentOperations (d1.paths.getD [])).countP
        (fun op => op.description ≠ "" ∧ (goTrimSpace op.description).utf8ByteSize < 10) =
        (documentOperations (d2.paths.getD [])).countP
          (fun op => op.description ≠ "" ∧ (goTrimSpace op.description).utf8ByteSize < 10) :=
      hopsperm.countP_eq _
    have heq : RuleT.evaluate .operationDescription ⟨d1, version⟩ =
        RuleT.evaluate .operationDescription ⟨d2, version⟩ := by
      simp only [RuleT.evaluate, OperationDescriptionRule.Evaluate, hplen, hmiss, hshort]
    exact ⟨hid, by rw [heq], fun _ => heq⟩
  | errorResponse =>
    have hm400 : (documentOperations (d1.paths.getD [])).countP
        (fun op => match op.responses with
          | some rs => !(rs.contains "400")
          | none => true) =
        (documentOperations (d2.paths.getD [])).countP
          (fun op => match op.responses with
            | some rs => !(rs.contains "400")
            | none => true) :=
      hopsperm.countP_eq _
    have hm500 : (documentOperations (d1.paths.getD [])).countP
        (fun op => match op.responses with
          | some rs => !(rs.contains "500")
          | none => true) =
        (documentOperations (d2.paths.getD [])).countP
          (fun op => match op.responses with
            | some rs => !(rs.contains "500")
            | none => true) :=
      hopsperm.countP_eq _
    have heq : RuleT.evaluate .errorResponse ⟨d1, version⟩ =
        RuleT.evaluate .errorResponse ⟨d2, version⟩ := by
      simp only [RuleT.evaluate, ErrorResponseRule.Evaluate, hplen, hm400, hm500]
    exact ⟨hid, by rw [heq], fun _ => heq⟩
  | securityScheme =>
    have heq : RuleT.evaluate .securityScheme ⟨d1, version⟩ =
        RuleT.evaluate .securityScheme ⟨d2, version⟩ := by
      cases hc1 : d1.components with
      | none =>
        cases hc2 : d2.components with
        | none => simp only [RuleT.evaluate, SecuritySchemeRule.Evaluate, hc1, hc2]
        | some c2 =>
          rw [hc1, hc2] at hcomps
          exact hcomps.elim
      | some c1 =>
        cases hc2 : d2.components with
        | none =>
          rw [hc1, hc2] at hcomps
          exact hcomps.elim
        | some c2 =>
          have hce : Components.Equiv c1 c2 := by
            rw [hc1, hc2] at hcomps
            exact hcomps
          obtain ⟨-, hss⟩ := hce
          cases hs1 : c1.securitySchemes with
          | none =>
            cases hs2 : c2.securitySchemes with
            | none => simp only [RuleT.evaluate, SecuritySchemeRule.Evaluate, hc1, hc2, hs1, hs2]
            | some s2 =>
              rw [hs1, hs2] at hss
              exact hss.elim
          | some s1 =>
            cases hs2 : c2.securitySchemes with
            | none =>
              rw [hs1, hs2] at hss
              exact hss.elim
            | some s2 =>
              have hsperm : s1.Perm s2 := by
                rw [hs1, hs2] at hss
                exact hss
              simp only [RuleT.evaluate, SecuritySchemeRule.Evaluate, hc1, hc2, hs1, hs2,
                hsperm.length_eq]
    exact ⟨hid, by rw [heq], fun _ => heq⟩
  | schemaExampleConsistency =>
    refine ⟨hid, ?_, fun hne => absurd rfl hne⟩
    cases hc1 : d1.components with
    | none =>
      cases hc2 : d2.components with
      | none => simp only [RuleT.evaluate, SchemaExampleConsistencyRule.Evaluate, hc1, hc2]
      | some c2 =>
        rw [hc1, hc2] at hcomps
        exact hcomps.elim
    | some c1 =>
      cases hc2 : d2.components with
      | none =>
        rw [hc1, hc2] at hcomps
        exact hcomps.elim
      | some c2 =>
        have hce : Components.Equiv c1 c2 := by
          rw [hc1, hc2] at hcomps
          exact hcomps
        obtain ⟨hcs, -⟩ := hce
        cases hs1 : c1.schemas with
        | none =>
          cases hs2 : c2.schemas with
          | none =>
            simp only [RuleT.evaluate, SchemaExampleConsistencyRule.Evaluate, hc1, hc2, hs1, hs2]
          | some s2 =>
            rw [hs1, hs2] at hcs
            exact hcs.elim
        | some s1 =>
          cases hs2 : c2.schemas with
          | none =>
            rw [hs1, hs2] at hcs
            exact hcs.elim
          | some s2 =>
            have hsperm : s1.Perm s2 := by
              rw [hs1, hs2] at hcs
              exact hcs
            have hissues : (s1.flatMap (fun s =>
                match s.2 with
                | some sid => checkSchemaExamples d1.store s.1 sid ""
                | none => [])).Perm
                (s2.flatMap (fun s =>
                  match s.2 with
                  | some sid => checkSchemaExamples d2.store s.1 sid ""
                  | none => [])) := by
              refine List.Perm.trans (List.Perm.flatMap_left _ ?_) (hsperm.flatMap_right _)
              intro p hp
              obtain ⟨pname, pid?⟩ := p
              cases pid? with
              | none => exact List.Perm.refl []
              | some pid => exact checkAux_perm hstore 11 pname pid "" 0 [] (by omega)
            have hilen := hissues.length_eq
            simp only [RuleT.evaluate, SchemaExampleConsistencyRule.Evaluate, hc1, hc2, hs1, hs2]
            simp only [hilen]
            split_ifs <;> rfl

/-- C8 (amended): across two runs over the same document — Go maps iterated
in possibly different randomized orders, captured by `Document.Equiv` — the
runner yields result sequences of equal length with pairwise equal rule IDs
and pass verdicts; every rule except oas3-valid-schema-example yields a
byte-identical result, and only that rule's detail text can differ (it may
list the same mismatches in a different order). -/
theorem run_deterministic_up_to_map_order {d1 d2 : Document} (h : Document.Equiv d1 d2)
    (version : String) (skips : List String) :
    List.Forall₂ (fun r1 r2 => r1.ruleID = r2.ruleID ∧ r1.passed = r2.passed ∧
        (r1.ruleID ≠ "oas3-valid-schema-example" → r1 = r2))
      (Runner.Run registerRules skips ⟨d1, version⟩)
      (Runner.Run registerRules skips ⟨d2, version⟩) := by
  show List.Forall₂ _
    ((RulesForVersion registerRules version).filterMap (fun rule =>
      if skips.contains rule.id then none else some (rule.evaluate ⟨d1, version⟩)))
    ((RulesForVersion registerRules version).filterMap (fun rule =>
      if skips.contains rule.id then none else some (rule.evaluate ⟨d2, version⟩)))
  generalize RulesForVersion registerRules version = rules
  induction rules with
  | nil => exact List.Forall₂.nil
  | cons rule rest ih =>
    by_cases hskip : skips.contains rule.id
    · simp only [List.filterMap_cons]
      rw [if_pos hskip, if_pos hskip]
      exact ih
    · simp only [List.filterMap_cons]
      rw [if_neg hskip, if_neg hskip]
      exact List.Forall₂.cons ⟨(evaluate_equiv h version rule).1,
        (evaluate_equiv h version rule).2.1,
        fun hne => (evaluate_equiv h version rule).2.2
          (fun hcon => hne (by rw [evaluate_ruleID rule ⟨d1, version⟩, hcon]; rfl))⟩ ih

/-- C8 witness: the amended determinism theorem applied to the mismatch
document paired with itself (a Go map read twice in the same order). -/
theorem run_deterministic_up_to_map_order_witness :
    Document.Equiv mismatchDocAB mismatchDocAB ∧
    List.Forall₂ (fun r1 r2 => r1.ruleID = r2.ruleID ∧ r1.passed = r2.passed ∧
        (r1.ruleID ≠ "oas3-valid-schema-example" → r1 = r2))
      (Runner.Run registerRules [] ⟨mismatchDocAB, "3.1.0"⟩)
      (Runner.Run registerRules [] ⟨mismatchDocAB, "3.1.0"⟩) :=
  ⟨⟨rfl, trivial, ⟨List.Perm.refl _, trivial⟩, fun _ => ⟨rfl, rfl, List.Perm.refl _⟩⟩,
    @run_deterministic_up_to_map_order mismatchDocAB mismatchDocAB
      ⟨rfl, trivial, ⟨List.Perm.refl _, trivial⟩, fun _ => ⟨rfl, rfl, List.Perm.refl _⟩⟩
      "3.1.0" []⟩

/-- C8 counterexample: one document presented under two iteration orders of
its schema map (a permutation, i.e. the same Go map) makes the runner emit
different RuleResult sequences — the schema-example rule's detail lists the
same two mismatches in different orders — refuting byte-identical output
across evaluations of the same document. -/
theorem run_not_bytewise_deterministic :
    Document.Equiv mismatchDocAB mismatchDocBA ∧
    Runner.Run registerRules [] ⟨mismatchDocAB, "3.1.0"⟩ ≠
      Runner.Run registerRules [] ⟨mismatchDocBA, "3.1.0"⟩ := by
  have hA : checkSchemaExamples mismatchStore "A" 0 "" =
      ["A: integer example x doesn't match type integer"] := by
    rw [checkSchemaExamples, checkSchemaExamplesWithDepth.eq_def]
    simp only [mismatchStore, ExampleVal.format, isExampleValidForType]
    decide
  have hB : checkSchemaExamples mismatchStore "B" 1 "" =
      ["B: integer example y doesn't match type integer"] := by
    rw [checkSchemaExamples, checkSchemaExamplesWithDepth.eq_def]
    simp only [mismatchStore, ExampleVal.format, isExampleValidForType]
    decide
  have hdA : (SchemaExampleConsistencyRule.Evaluate ⟨mismatchDocAB, "3.1.0"⟩).detail =
      "Found 2 type/example mismatches: A: integer example x doesn't match type integer; " ++
        "B: integer example y doesn't match type integer" := by
    simp [SchemaExampleConsistencyRule.Evaluate, mismatchDocAB, hA, hB]
    decide
  have hdB : (SchemaExampleConsistencyRule.Evaluate ⟨mismatchDocBA, "3.1.0"⟩).detail =
      "Found 2 type/example mismatches: B: integer example y doesn't match type integer; " ++
        "A: integer example x doesn't match type integer" := by
    simp [SchemaExampleConsistencyRule.Evaluate, mismatchDocBA, hA, hB]
    decide
  constructor
  · exact ⟨rfl, trivial,
      ⟨show List.Perm [("A", some 0), ("B", some 1)] [("B", some 1), ("A", some 0)] by decide,
        trivial⟩,
      fun n => ⟨rfl, rfl, List.Perm.refl _⟩⟩
  · intro heq
    have h5 : ((Runner.Run registerRules [] ⟨mismatchDocAB, "3.1.0"⟩).get? 4).map
        RuleResult.detail =
        ((Runner.Run registerRules [] ⟨mismatchDocBA, "3.1.0"⟩).get? 4).map
          RuleResult.detail := by rw [heq]
    have eA : ((Runner.Run registerRules [] ⟨mismatchDocAB, "3.1.0"⟩).get? 4).map
        RuleResult.detail =
        some (SchemaExampleConsistencyRule.Evaluate ⟨mismatchDocAB, "3.1.0"⟩).detail := rfl
    have eB : ((Runner.Run registerRules [] ⟨mismatchDocBA, "3.1.0"⟩).get? 4).map
        RuleResult.detail =
        some (SchemaExampleConsistencyRule.Evaluate ⟨mismatchDocBA, "3.1.0"⟩).detail := rfl
    rw [eA, eB, hdA, hdB] at h5
    exact absurd (Option.some.inj h5) (by decide)

/-- C10 witness: the general theorem applied to a concrete unknown rule ID. -/
theorem runRule_nil_nil_witness :
    GetRule registerRules "no-such-rule" = none ∧
    Runner.RunRule registerRules ⟨emptyDoc, "3.0.0"⟩ "no-such-rule" = (none, none) :=
  ⟨by decide,
    (runRule_nil_nil registerRules ⟨emptyDoc, "3.0.0"⟩ "no-such-rule").2.1 (by decide)⟩

end SpecGrade
